import Mathlib

/-!
Shallow embedding of `cli/js/tests/unit_test_runner.ts`: the permission-matrix
unit-test orchestrator.  Protocol messages are modelled after the decoded
`Deno.TestMessage` shapes the runner inspects; each collector and runner main
is translated statement-by-statement from the TypeScript source.  Console
output is modelled as a list of `ConsoleLine` events (a `console.log`d string,
or a `reportToConsole(message)` pass-through).  A thrown `Error` is modelled as
`Except.error` carrying the exact message string; an `await` that can never
resolve (the threaded collector waiting on a resolvable that only an `End`
message resolves) is modelled as `Option.none`.
-/

namespace UnitTestRunner

/-- Outcome of a single test, as carried by `testEnd` protocol messages. -/
inductive TestResultKind
  | passed
  | failed
  | ignored
  deriving DecidableEq

/-- The `end` summary of `Deno.TestMessage`: the fields the runner reads
(`passed`, `ignored`) plus the other counters of the wire shape. -/
structure EndMessage where
  passed : Nat
  failed : Nat
  ignored : Nat
  duration : Nat
  deriving DecidableEq

/-- A decoded `Deno.TestMessage`: exactly one of the four variants is set. -/
inductive TestMessage
  | start (tests : List String)
  | testStart (name : String)
  | testEnd (name : String) (result : TestResultKind) (error : Option String)
  | endMsg (e : EndMessage)
  deriving DecidableEq

/-- Whether a message is the terminal `end` variant. -/
def TestMessage.isEnd : TestMessage → Bool
  | .endMsg _ => true
  | _ => false

/-- The two mutable locals of each collector loop:
`expectedPassedTests` (set from `message.start.tests.length`) and
`endMessage` (set from `message.end`); both `undefined` until seen. -/
structure CollectState where
  expectedPassedTests : Option Nat
  endMessage : Option EndMessage
  deriving DecidableEq

/-- One iteration of the collector loop body: `if (message.start != null)`
record the declared count, `else if (message.end != null)` record the
summary; other messages only get reported. -/
def stepMessage (s : CollectState) (m : TestMessage) : CollectState :=
  match m with
  | .start tests => { s with expectedPassedTests := some tests.length }
  | .endMsg e => { s with endMessage := some e }
  | _ => s

/-- The `for await (const line of readLines(conn))` loop of
`runTestsForPermissionSet`: it consumes the whole stream (it never breaks
at `end`), folding every decoded message into the collector state. -/
def readAll (msgs : List TestMessage) : CollectState :=
  msgs.foldl stepMessage { expectedPassedTests := none, endMessage := none }

/-- `workerProcess.status()`: exit outcome of the spawned worker process. -/
structure ProcessStatus where
  success : Bool
  code : Int
  deriving DecidableEq

/-- The runner's per-permission-set verdict record (`perms` itself is the
capability set the formatted string was rendered from; the collectors only
ever thread the rendered string through, so the model carries that). -/
structure PermissionSetTestResult where
  passed : Bool
  endMessage : EndMessage
  permsStr : String
  deriving DecidableEq

/-- `runTestsForPermissionSet`, after the read loop: the missing-start check,
then the missing-end check, then `await workerProcess.status()` and the
abend check, and finally
`passed = expectedPassedTests === endMessage.passed + endMessage.ignored`. -/
def runTestsForPermissionSet (msgs : List TestMessage) (status : ProcessStatus)
    (permsFmt : String) : Except String PermissionSetTestResult :=
  match (readAll msgs).expectedPassedTests, (readAll msgs).endMessage with
  | none, _ => Except.error "Worker runner didn't report start"
  | some _, none => Except.error "Worker runner didn't report end"
  | some expected, some e =>
    if !status.success then
      Except.error ("Worker runner exited with status code: " ++ toString status.code)
    else
      Except.ok { passed := expected == e.passed + e.ignored
                  endMessage := e
                  permsStr := permsFmt }

/-- The `worker.onmessage` handler of `runTestsInThreadForPermissionSet`,
driven by the inbound channel: a `start` records the declared count and the
handler keeps listening; an `end` records the summary, terminates the worker
and resolves the awaited resolvable, so nothing after the first `end` is
delivered; if the channel runs dry with no `end`, the resolvable is never
resolved and the `await` suspends forever (`none`). -/
def consumeUntilEnd (s : CollectState) : List TestMessage → Option CollectState
  | [] => none
  | m :: rest =>
    match m with
    | .endMsg e => some { s with endMessage := some e }
    | .start tests =>
      consumeUntilEnd { s with expectedPassedTests := some tests.length } rest
    | _ => consumeUntilEnd s rest

/-- `runTestsInThreadForPermissionSet`: waits for the `onmessage` handler to
resolve (`none` = the await never completes), then runs the missing-start and
missing-end checks and computes `passed` exactly as the process variant does.
There is no exit-status check in this variant. -/
def runTestsInThreadForPermissionSet (msgs : List TestMessage)
    (permsFmt : String) : Option (Except String PermissionSetTestResult) :=
  match consumeUntilEnd { expectedPassedTests := none, endMessage := none } msgs with
  | none => none
  | some s =>
    match s.expectedPassedTests, s.endMessage with
    | none, _ => some (Except.error "Worker runner didn't report start")
    | some _, none => some (Except.error "Worker runner didn't report end")
    | some expected, some e =>
      some (Except.ok { passed := expected == e.passed + e.ignored
                        endMessage := e
                        permsStr := permsFmt })

/-- One unit of console output: a `console.log`/`console.error`d string, or a
`reportToConsole(message)` pass-through of a decoded protocol message. -/
inductive ConsoleLine
  | line (s : String)
  | report (m : TestMessage)
  deriving DecidableEq

/-- What the orchestrator hands one run: the capability set rendered by
`fmtPerms` (the set itself is opaque input from the external combination
generator), the decoded message stream the run delivers, and the process
exit status of the spawned worker. -/
structure RunSpec where
  permsFmt : String
  msgs : List TestMessage
  status : ProcessStatus
  deriving DecidableEq

/-- Console output of one `runTestsForPermissionSet` call: the
"Running tests for:" header, then `reportToConsole(message)` for every
decoded message of the stream (the loop reports all of them, even past an
`end`). -/
def runOutputMaster (r : RunSpec) : List ConsoleLine :=
  ConsoleLine.line ("Running tests for: " ++ r.permsFmt) :: r.msgs.map ConsoleLine.report

/-- The prefix of the channel's messages the threaded collector actually
receives: `worker.terminate()` inside the `end` branch cuts delivery right
after the first `end` message. -/
def takeToFirstEnd : List TestMessage → List TestMessage
  | [] => []
  | m :: rest =>
    match m with
    | .endMsg e => [.endMsg e]
    | _ => m :: takeToFirstEnd rest

/-- Console output of one `runTestsInThreadForPermissionSet` call: the header,
then one `reportToConsole` per delivered channel message (delivery stops at
the first `end` because the worker is terminated there). -/
def runOutputThread (r : RunSpec) : List ConsoleLine :=
  ConsoleLine.line ("Running tests for: " ++ r.permsFmt)
    :: (takeToFirstEnd r.msgs).map ConsoleLine.report

/-- The `for (const perms of permissionCombinations.values())` loop of
`masterRunnerMain`: runs each permission set in order, accumulating console
output; a thrown per-run error is not caught anywhere in the loop, so it
aborts the iteration and propagates (`Except.error`). -/
def masterLoop : List RunSpec →
    List ConsoleLine × Except String (List PermissionSetTestResult)
  | [] => ([], Except.ok [])
  | r :: rs =>
    match runTestsForPermissionSet r.msgs r.status r.permsFmt with
    | Except.error e => (runOutputMaster r, Except.error e)
    | Except.ok v =>
      let rest := masterLoop rs
      (runOutputMaster r ++ rest.1, rest.2.map (fun vs => v :: vs))

/-- The discovery banner `masterRunnerMain`/`threadedRunnerMain` print first:
the combination count and one tab-indented formatted set per line. -/
def discoveredHeader (rs : List RunSpec) : List ConsoleLine :=
  ConsoleLine.line ("Discovered permission combinations for tests: "
      ++ toString rs.length)
    :: rs.map (fun r => ConsoleLine.line ("\t" ++ r.permsFmt))

/-- The summary block printed after the sweep: `Summary for <permsStr>` plus
the pass-through rendering of the recorded end message, for every recorded
result, passed or not. -/
def summaryBlock : List PermissionSetTestResult → List ConsoleLine
  | [] => []
  | v :: vs =>
    ConsoleLine.line ("Summary for " ++ v.permsStr)
      :: ConsoleLine.report (TestMessage.endMsg v.endMessage) :: summaryBlock vs

/-- The concatenated per-run console output of a list of distributed runs. -/
def masterOutputs : List RunSpec → List ConsoleLine
  | [] => []
  | r :: rs => runOutputMaster r ++ masterOutputs rs

/-- `masterRunnerMain`: banner, the sequential sweep, then — only when no run
threw — the per-set summaries, the AND-aggregation of `passed`, and either
`console.error("Unit tests failed")` with `Deno.exit(1)` or the final
"Unit tests passed" line (exit code 0).  A thrown per-run error escapes the
function (`Except.error`): no summary is printed and no later set is run. -/
def masterRunnerMain (rs : List RunSpec) : List ConsoleLine × Except String Nat :=
  match (masterLoop rs).2 with
  | Except.error e => (discoveredHeader rs ++ (masterLoop rs).1, Except.error e)
  | Except.ok vs =>
    if !vs.all (fun v => v.passed) then
      (discoveredHeader rs ++ (masterLoop rs).1 ++ summaryBlock vs
        ++ [ConsoleLine.line "Unit tests failed"], Except.ok 1)
    else
      (discoveredHeader rs ++ (masterLoop rs).1 ++ summaryBlock vs
        ++ [ConsoleLine.line "Unit tests passed"], Except.ok 0)

/-- The sweep loop of `threadedRunnerMain`: like `masterLoop` but with the
threaded collector; a run whose collector never resolves hangs the whole
sweep (`none`). -/
def threadLoop : List RunSpec →
    Option (List ConsoleLine × Except String (List PermissionSetTestResult))
  | [] => some ([], Except.ok [])
  | r :: rs =>
    match runTestsInThreadForPermissionSet r.msgs r.permsFmt with
    | none => none
    | some (Except.error e) => some (runOutputThread r, Except.error e)
    | some (Except.ok v) =>
      match threadLoop rs with
      | none => none
      | some rest => some (runOutputThread r ++ rest.1, rest.2.map (fun vs => v :: vs))

/-- `threadedRunnerMain`: same banner, sweep, summary and AND-aggregation as
the master variant, over the threaded collector; `none` when some run's
collector never resolves. -/
def threadedRunnerMain (rs : List RunSpec) :
    Option (List ConsoleLine × Except String Nat) :=
  match threadLoop rs with
  | none => none
  | some loop =>
    match loop.2 with
    | Except.error e => some (discoveredHeader rs ++ loop.1, Except.error e)
    | Except.ok vs =>
      if !vs.all (fun v => v.passed) then
        some (discoveredHeader rs ++ loop.1 ++ summaryBlock vs
          ++ [ConsoleLine.line "Unit tests failed"], Except.ok 1)
      else
        some (discoveredHeader rs ++ loop.1 ++ summaryBlock vs
          ++ [ConsoleLine.line "Unit tests passed"], Except.ok 0)

/-- The fixed list of known permissions of the worker runner. -/
def PERMISSIONS : List String :=
  ["read", "write", "net", "env", "run", "plugin", "hrtime"]

/-- Observable actions of a worker-mode process, in program order.  `grant`
is the widening action the permission API would offer; the runner never
performs it. -/
inductive WorkerEvent
  | connect (addrStr : String)
  | revoke (perm : String)
  | grant (perm : String)
  | registerTests
  | runTests
  deriving DecidableEq

/-- JavaScript's `s.split(",")` on the string's character list: one group per
comma-separated segment; the empty input yields one empty segment. -/
def splitComma : List Char → List (List Char)
  | [] => [[]]
  | c :: rest =>
    if c = ',' then [] :: splitComma rest
    else
      match splitComma rest with
      | [] => [[c]]
      | g :: gs => (c :: g) :: gs

/-- `permsStr.split(",")` as a `String → List String`. -/
def stringSplitComma (s : String) : List String :=
  (splitComma s.data).map (fun cs => String.mk cs)

/-- The `--perms` parsing in `workerRunnerMain`: the split only happens when
`permsStr.length > 0`, so `""` yields the empty grant list rather than the
one empty-named permission `split` would produce. -/
def parsePermsArg (permsStr : String) : List String :=
  if permsStr.length > 0 then stringSplitComma permsStr else []

/-- `dropWorkerPermissions`: revoke, in `PERMISSIONS` order, every known
permission that is not in the required list. -/
def dropWorkerPermissions (requiredPermissions : List String) : List WorkerEvent :=
  (PERMISSIONS.filter (fun p => !requiredPermissions.contains p)).map WorkerEvent.revoke

/-- `workerRunnerMain` as its trace of observable actions, in source order:
connect to the reporting address, drop permissions to the requested set,
register the unit tests, run them. -/
def workerRunnerMain (addrStr permsStr : String) : List WorkerEvent :=
  WorkerEvent.connect addrStr
    :: (dropWorkerPermissions (parsePermsArg permsStr)
        ++ [WorkerEvent.registerTests, WorkerEvent.runTests])

lemma foldl_stepMessage_endMessage_of_no_end (pre : List TestMessage)
    (s : CollectState) (h : pre.all (fun m => !m.isEnd) = true) :
    (pre.foldl stepMessage s).endMessage = s.endMessage := by
  induction pre generalizing s with
  | nil => rfl
  | cons m rest ih =>
    simp only [List.all_cons, Bool.and_eq_true] at h
    cases m with
    | start tests => exact ih _ h.2
    | testStart name => exact ih _ h.2
    | testEnd name result error => exact ih _ h.2
    | endMsg e => simp [TestMessage.isEnd] at h

lemma consumeUntilEnd_eq_none_of_no_end (msgs : List TestMessage)
    (s : CollectState) (h : msgs.all (fun m => !m.isEnd) = true) :
    consumeUntilEnd s msgs = none := by
  induction msgs generalizing s with
  | nil => rfl
  | cons m rest ih =>
    simp only [List.all_cons, Bool.and_eq_true] at h
    cases m with
    | start tests => exact ih _ h.2
    | testStart name => exact ih _ h.2
    | testEnd name result error => exact ih _ h.2
    | endMsg e => simp [TestMessage.isEnd] at h

lemma consumeUntilEnd_of_first_end (pre : List TestMessage) (e : EndMessage)
    (post : List TestMessage) (s : CollectState)
    (h : pre.all (fun m => !m.isEnd) = true) :
    consumeUntilEnd s (pre ++ TestMessage.endMsg e :: post) =
      some { pre.foldl stepMessage s with endMessage := some e } := by
  induction pre generalizing s with
  | nil => rfl
  | cons m rest ih =>
    simp only [List.all_cons, Bool.and_eq_true] at h
    cases m with
    | start tests => exact ih _ h.2
    | testStart name => exact ih _ h.2
    | testEnd name result error => exact ih _ h.2
    | endMsg e2 => simp [TestMessage.isEnd] at h

/-- C1: for every run in which both a `Start` and an `End` message were
observed (that is, whenever a verdict is produced, both were recorded), the
verdict's `passed` field is true iff the declared test count from `Start`
equals the `End` message's `passed` count plus its `ignored` count — in both
the distributed-process and the isolated-worker collector. -/
theorem claim1_passed_iff_declared_eq_completed :
    (∀ (msgs : List TestMessage) (status : ProcessStatus) (fmt : String)
        (v : PermissionSetTestResult),
        runTestsForPermissionSet msgs status fmt = Except.ok v →
        ∃ n, (readAll msgs).expectedPassedTests = some n ∧
          (readAll msgs).endMessage = some v.endMessage ∧
          (v.passed = true ↔ n = v.endMessage.passed + v.endMessage.ignored))
  ∧ (∀ (msgs : List TestMessage) (fmt : String) (v : PermissionSetTestResult),
        runTestsInThreadForPermissionSet msgs fmt = some (Except.ok v) →
        ∃ s n, consumeUntilEnd ⟨none, none⟩ msgs = some s ∧
          s.expectedPassedTests = some n ∧ s.endMessage = some v.endMessage ∧
          (v.passed = true ↔ n = v.endMessage.passed + v.endMessage.ignored)) := by
  constructor
  · intro msgs status fmt v h
    unfold runTestsForPermissionSet at h
    split at h
    · exact Except.noConfusion h
    · exact Except.noConfusion h
    · rename_i expected e hexp hend
      cases hs : status.success with
      | false => simp [hs] at h
      | true =>
        simp only [hs, Bool.not_true, Bool.false_eq_true, if_false,
          Except.ok.injEq] at h
        subst h
        exact ⟨expected, hexp, hend, by simp [beq_iff_eq]⟩
  · intro msgs fmt v h
    unfold runTestsInThreadForPermissionSet at h
    split at h
    · exact Option.noConfusion h
    · rename_i s hcons
      split at h
      · simp at h
      · simp at h
      · rename_i expected e hexp hend
        simp only [Option.some.injEq, Except.ok.injEq] at h
        subst h
        exact ⟨s, expected, hcons, hexp, hend, by simp [beq_iff_eq]⟩

/-- Witness for C1 at a concrete passing run. -/
theorem claim1_witness :
    ∃ n, (readAll [TestMessage.start ["a", "b", "c"],
        TestMessage.endMsg ⟨3, 0, 0, 10⟩]).expectedPassedTests = some n ∧
      (readAll [TestMessage.start ["a", "b", "c"],
        TestMessage.endMsg ⟨3, 0, 0, 10⟩]).endMessage = some ⟨3, 0, 0, 10⟩ ∧
      ((true : Bool) = true ↔ n = 3 + 0) :=
  claim1_passed_iff_declared_eq_completed.1
    [TestMessage.start ["a", "b", "c"], TestMessage.endMsg ⟨3, 0, 0, 10⟩]
    ⟨true, 0⟩ "read" ⟨true, ⟨3, 0, 0, 10⟩, "read"⟩ rfl

/-- C3 counterexample: a run that emits `Start{tests:["a","b","c"]}`, then one
`TestEnd`, and terminates without an `End` message.  The isolated-worker
collector does not fail with a missing-end diagnostic: its awaited resolvable
is only ever resolved by an `End` message, so the collector never completes at
all (`none`), contradicting "if no End message was observed it fails with a
missing-end diagnostic". -/
theorem claim3_counterexample :
    runTestsInThreadForPermissionSet
      [TestMessage.start ["a", "b", "c"],
       TestMessage.testEnd "a" TestResultKind.passed none] "read" = none := rfl

/-- C3 amended: in the distributed-process collector the checks do run in the
claimed order once the stream has ended — missing start first, then missing
end, then process abend; the isolated-worker collector instead never completes
when no `End` message is observed. -/
theorem claim3_check_order :
    (∀ (msgs : List TestMessage) (status : ProcessStatus) (fmt : String),
        (readAll msgs).expectedPassedTests = none →
        runTestsForPermissionSet msgs status fmt =
          Except.error "Worker runner didn't report start")
  ∧ (∀ (msgs : List TestMessage) (status : ProcessStatus) (fmt : String) (n : Nat),
        (readAll msgs).expectedPassedTests = some n →
        (readAll msgs).endMessage = none →
        runTestsForPermissionSet msgs status fmt =
          Except.error "Worker runner didn't report end")
  ∧ (∀ (msgs : List TestMessage) (status : ProcessStatus) (fmt : String)
        (n : Nat) (e : EndMessage),
        (readAll msgs).expectedPassedTests = some n →
        (readAll msgs).endMessage = some e →
        status.success = false →
        runTestsForPermissionSet msgs status fmt =
          Except.error ("Worker runner exited with status code: "
            ++ toString status.code))
  ∧ (∀ (msgs : List TestMessage) (fmt : String),
        msgs.all (fun m => !m.isEnd) = true →
        runTestsInThreadForPermissionSet msgs fmt = none) := by
  refine ⟨?_, ?_, ?_, ?_⟩
  · intro msgs status fmt h
    unfold runTestsForPermissionSet
    rw [h]
  · intro msgs status fmt n h1 h2
    unfold runTestsForPermissionSet
    rw [h1, h2]
  · intro msgs status fmt n e h1 h2 h3
    unfold runTestsForPermissionSet
    rw [h1, h2]
    simp [h3]
  · intro msgs fmt h
    unfold runTestsInThreadForPermissionSet
    rw [consumeUntilEnd_eq_none_of_no_end msgs _ h]

/-- Witness for C3's amended statement at concrete runs exercising each of
the three diagnostics and the hanging worker collector. -/
theorem claim3_witness :
    runTestsForPermissionSet [TestMessage.testStart "a"] ⟨true, 0⟩ "r" =
      Except.error "Worker runner didn't report start" ∧
    runTestsForPermissionSet [TestMessage.start ["a"]] ⟨true, 0⟩ "r" =
      Except.error "Worker runner didn't report end" ∧
    runTestsForPermissionSet
      [TestMessage.start ["a"], TestMessage.endMsg ⟨1, 0, 0, 2⟩] ⟨false, 3⟩ "r" =
      Except.error ("Worker runner exited with status code: " ++ toString (3 : Int)) ∧
    runTestsInThreadForPermissionSet [TestMessage.start ["a"]] "r" = none :=
  ⟨claim3_check_order.1 _ _ _ rfl,
   claim3_check_order.2.1 _ _ _ 1 rfl rfl,
   claim3_check_order.2.2.1 _ _ _ 1 ⟨1, 0, 0, 2⟩ rfl rfl rfl,
   claim3_check_order.2.2.2 _ _ (by decide)⟩

/-- C4: a run whose process exits with a non-zero status never yields a
passing verdict, even when the stream contains a clean `Start`/`End` pair
with matching counts: the collector checks `workerStatus.success` and throws
the process-abend diagnostic, overriding the otherwise-consistent stream. -/
theorem claim4_abend_overrides_clean_stream :
    (∀ (msgs : List TestMessage) (status : ProcessStatus) (fmt : String),
        status.success = false →
        ∀ v, runTestsForPermissionSet msgs status fmt ≠ Except.ok v)
  ∧ (∀ (tests : List String) (e : EndMessage) (status : ProcessStatus) (fmt : String),
        status.success = false →
        tests.length = e.passed + e.ignored →
        runTestsForPermissionSet [TestMessage.start tests, TestMessage.endMsg e]
            status fmt =
          Except.error ("Worker runner exited with status code: "
            ++ toString status.code)) := by
  constructor
  · intro msgs status fmt hs v
    unfold runTestsForPermissionSet
    split
    · simp
    · simp
    · simp [hs]
  · intro tests e status fmt hs hcounts
    simp [runTestsForPermissionSet, readAll, stepMessage, hs]

/-- Witness for C4: one test declared, clean matching `End`, exit code 1. -/
theorem claim4_witness :
    runTestsForPermissionSet
        [TestMessage.start ["a"], TestMessage.endMsg ⟨1, 0, 0, 5⟩] ⟨false, 1⟩ "read" ≠
      Except.ok ⟨true, ⟨1, 0, 0, 5⟩, "read"⟩ ∧
    runTestsForPermissionSet
        [TestMessage.start ["a"], TestMessage.endMsg ⟨1, 0, 0, 5⟩] ⟨false, 1⟩ "read" =
      Except.error ("Worker runner exited with status code: " ++ toString (1 : Int)) :=
  ⟨claim4_abend_overrides_clean_stream.1 _ _ "read" rfl _,
   claim4_abend_overrides_clean_stream.2 ["a"] ⟨1, 0, 0, 5⟩ ⟨false, 1⟩ "read" rfl
     (by decide)⟩

lemma masterLoop_of_error (pre post : List RunSpec) (r : RunSpec) (e : String)
    (hok : ∀ r2 ∈ pre, ∃ v,
      runTestsForPermissionSet r2.msgs r2.status r2.permsFmt = Except.ok v)
    (herr : runTestsForPermissionSet r.msgs r.status r.permsFmt = Except.error e) :
    masterLoop (pre ++ r :: post) =
      (masterOutputs pre ++ runOutputMaster r, Except.error e) := by
  induction pre with
  | nil => simp [masterLoop, masterOutputs, herr]
  | cons p rest ih =>
    obtain ⟨v, hv⟩ := hok p (by simp)
    have hrest := ih (fun r2 hr2 => hok r2 (by simp [hr2]))
    simp [masterLoop, masterOutputs, hv, hrest, Except.map]

/-- C2 counterexample: the first capability set's run emits `Start` but no
`End`; `masterRunnerMain` does not downgrade the thrown error to a failed
verdict — the error escapes the loop, the second capability set is never run
(its "Running tests for" line is never printed) and no per-set summary is
printed. -/
theorem claim2_counterexample :
    (masterRunnerMain
      [⟨"A", [TestMessage.start ["a"]], ⟨true, 0⟩⟩,
       ⟨"B", [TestMessage.start ["a"], TestMessage.endMsg ⟨1, 0, 0, 2⟩],
        ⟨true, 0⟩⟩]).2 = Except.error "Worker runner didn't report end" ∧
    ConsoleLine.line "Running tests for: B" ∉
      (masterRunnerMain
        [⟨"A", [TestMessage.start ["a"]], ⟨true, 0⟩⟩,
         ⟨"B", [TestMessage.start ["a"], TestMessage.endMsg ⟨1, 0, 0, 2⟩],
          ⟨true, 0⟩⟩]).1 ∧
    ConsoleLine.line "Summary for A" ∉
      (masterRunnerMain
        [⟨"A", [TestMessage.start ["a"]], ⟨true, 0⟩⟩,
         ⟨"B", [TestMessage.start ["a"], TestMessage.endMsg ⟨1, 0, 0, 2⟩],
          ⟨true, 0⟩⟩]).1 := by
  refine ⟨rfl, by decide, by decide⟩

/-- C2 amended: a per-set failure (missing start, missing end, or abnormal
exit) is a thrown error that is NOT caught at the collector/matrix-runner
boundary: with every earlier set's run succeeding, the sweep aborts with that
error, the console output stops at the failing run's own output (no later set
is run, no per-set summary is printed). -/
theorem claim2_error_aborts_sweep (pre post : List RunSpec) (r : RunSpec)
    (e : String)
    (hok : ∀ r2 ∈ pre, ∃ v,
      runTestsForPermissionSet r2.msgs r2.status r2.permsFmt = Except.ok v)
    (herr : runTestsForPermissionSet r.msgs r.status r.permsFmt = Except.error e) :
    (masterRunnerMain (pre ++ r :: post)).2 = Except.error e ∧
    (masterRunnerMain (pre ++ r :: post)).1 =
      discoveredHeader (pre ++ r :: post)
        ++ (masterOutputs pre ++ runOutputMaster r) := by
  have h := masterLoop_of_error pre post r e hok herr
  constructor
  · simp [masterRunnerMain, h]
  · simp [masterRunnerMain, h]

/-- Witness for C2's amended statement: a passing first set, a second set
whose run never reports `End`, a third set that would have passed. -/
theorem claim2_witness :
    (masterRunnerMain
      [⟨"A", [TestMessage.start ["a"], TestMessage.endMsg ⟨1, 0, 0, 2⟩], ⟨true, 0⟩⟩,
       ⟨"B", [TestMessage.start ["b"]], ⟨true, 0⟩⟩,
       ⟨"C", [TestMessage.start ["c"], TestMessage.endMsg ⟨1, 0, 0, 2⟩],
        ⟨true, 0⟩⟩]).2 = Except.error "Worker runner didn't report end" ∧
    (masterRunnerMain
      [⟨"A", [TestMessage.start ["a"], TestMessage.endMsg ⟨1, 0, 0, 2⟩], ⟨true, 0⟩⟩,
       ⟨"B", [TestMessage.start ["b"]], ⟨true, 0⟩⟩,
       ⟨"C", [TestMessage.start ["c"], TestMessage.endMsg ⟨1, 0, 0, 2⟩],
        ⟨true, 0⟩⟩]).1 =
      discoveredHeader
        [⟨"A", [TestMessage.start ["a"], TestMessage.endMsg ⟨1, 0, 0, 2⟩], ⟨true, 0⟩⟩,
         ⟨"B", [TestMessage.start ["b"]], ⟨true, 0⟩⟩,
         ⟨"C", [TestMessage.start ["c"], TestMessage.endMsg ⟨1, 0, 0, 2⟩],
          ⟨true, 0⟩⟩]
        ++ (masterOutputs
              [⟨"A", [TestMessage.start ["a"], TestMessage.endMsg ⟨1, 0, 0, 2⟩],
                ⟨true, 0⟩⟩]
            ++ runOutputMaster ⟨"B", [TestMessage.start ["b"]], ⟨true, 0⟩⟩) :=
  claim2_error_aborts_sweep
    [⟨"A", [TestMessage.start ["a"], TestMessage.endMsg ⟨1, 0, 0, 2⟩], ⟨true, 0⟩⟩]
    [⟨"C", [TestMessage.start ["c"], TestMessage.endMsg ⟨1, 0, 0, 2⟩], ⟨true, 0⟩⟩]
    ⟨"B", [TestMessage.start ["b"]], ⟨true, 0⟩⟩
    "Worker runner didn't report end"
    (by
      intro r2 hr2
      simp only [List.mem_singleton] at hr2
      subst hr2
      exact ⟨⟨true, ⟨1, 0, 0, 2⟩, "A"⟩, rfl⟩)
    rfl

lemma takeToFirstEnd_of_first_end (pre : List TestMessage) (e : EndMessage)
    (post : List TestMessage) (h : pre.all (fun m => !m.isEnd) = true) :
    takeToFirstEnd (pre ++ TestMessage.endMsg e :: post) =
      pre ++ [TestMessage.endMsg e] := by
  induction pre with
  | nil => rfl
  | cons m rest ih =>
    simp only [List.all_cons, Bool.and_eq_true] at h
    cases m with
    | start tests => simpa [takeToFirstEnd] using ih h.2
    | testStart name => simpa [takeToFirstEnd] using ih h.2
    | testEnd name result error => simpa [takeToFirstEnd] using ih h.2
    | endMsg e2 => simp [TestMessage.isEnd] at h

/-- C5 counterexample: the distributed-process collector does not stop
consuming at `End`.  On the stream `Start ["a"]`, `End{passed 1}`,
`Start ["a","b"]` the post-`End` `Start` is still decoded (it overwrites the
recorded declared count, flipping the verdict to failed) and still reported
to the console. -/
theorem claim5_counterexample :
    runTestsForPermissionSet
      [TestMessage.start ["a"], TestMessage.endMsg ⟨1, 0, 0, 7⟩,
       TestMessage.start ["a", "b"]] ⟨true, 0⟩ "read" =
      Except.ok ⟨false, ⟨1, 0, 0, 7⟩, "read"⟩ ∧
    (readAll [TestMessage.start ["a"], TestMessage.endMsg ⟨1, 0, 0, 7⟩,
       TestMessage.start ["a", "b"]]).expectedPassedTests = some 2 ∧
    ConsoleLine.report (TestMessage.start ["a", "b"]) ∈
      runOutputMaster ⟨"read",
        [TestMessage.start ["a"], TestMessage.endMsg ⟨1, 0, 0, 7⟩,
         TestMessage.start ["a", "b"]], ⟨true, 0⟩⟩ := by
  refine ⟨rfl, rfl, by decide⟩

/-- C5 amended: the isolated-worker collector does stop at the first `End`
(later messages are neither delivered nor can they change the result), but
the distributed-process collector consumes the whole stream: every message is
reported, and a trailing `Start` or `End` overwrites the recorded declared
count or summary. -/
theorem claim5_stop_at_end_variants :
    (∀ (pre post : List TestMessage) (e : EndMessage) (fmt : String),
        pre.all (fun m => !m.isEnd) = true →
        runTestsInThreadForPermissionSet (pre ++ TestMessage.endMsg e :: post) fmt =
          runTestsInThreadForPermissionSet (pre ++ [TestMessage.endMsg e]) fmt)
  ∧ (∀ (pre post : List TestMessage) (e : EndMessage),
        pre.all (fun m => !m.isEnd) = true →
        takeToFirstEnd (pre ++ TestMessage.endMsg e :: post) =
          pre ++ [TestMessage.endMsg e])
  ∧ (∀ (msgs : List TestMessage) (tests : List String),
        (readAll (msgs ++ [TestMessage.start tests])).expectedPassedTests =
          some tests.length)
  ∧ (∀ (msgs : List TestMessage) (e : EndMessage),
        (readAll (msgs ++ [TestMessage.endMsg e])).endMessage = some e)
  ∧ (∀ (r : RunSpec) (m : TestMessage), m ∈ r.msgs →
        ConsoleLine.report m ∈ runOutputMaster r) := by
  refine ⟨?_, ?_, ?_, ?_, ?_⟩
  · intro pre post e fmt h
    unfold runTestsInThreadForPermissionSet
    rw [consumeUntilEnd_of_first_end pre e post _ h,
      consumeUntilEnd_of_first_end pre e [] _ h]
  · intro pre post e h
    exact takeToFirstEnd_of_first_end pre e post h
  · intro msgs tests
    simp [readAll, List.foldl_append, stepMessage]
  · intro msgs e
    simp [readAll, List.foldl_append, stepMessage]
  · intro r m hm
    exact List.mem_cons_of_mem _ (List.mem_map_of_mem _ hm)

/-- Witness for C5's amended statement: a stream with one message after the
first `End`; the worker collector's result is unchanged by it. -/
theorem claim5_witness :
    runTestsInThreadForPermissionSet
      ([TestMessage.start ["a"]] ++ TestMessage.endMsg ⟨1, 0, 0, 7⟩
        :: [TestMessage.start ["a", "b"]]) "read" =
    runTestsInThreadForPermissionSet
      ([TestMessage.start ["a"]] ++ [TestMessage.endMsg ⟨1, 0, 0, 7⟩]) "read" :=
  claim5_stop_at_end_variants.1 [TestMessage.start ["a"]]
    [TestMessage.start ["a", "b"]] ⟨1, 0, 0, 7⟩ "read" (by decide)

/-- C9 counterexample: one and the same delivered message sequence, with a
successful exit outcome, on which the two collectors disagree: after `End`
a further `Start ["x","y"]` arrives; the isolated-worker collector has
already terminated the worker (verdict passed), while the
distributed-process collector processes it and reports a failed verdict. -/
theorem claim9_counterexample :
    runTestsInThreadForPermissionSet
      [TestMessage.start ["a"], TestMessage.endMsg ⟨1, 0, 0, 9⟩,
       TestMessage.start ["x", "y"]] "p" =
      some (Except.ok ⟨true, ⟨1, 0, 0, 9⟩, "p"⟩) ∧
    runTestsForPermissionSet
      [TestMessage.start ["a"], TestMessage.endMsg ⟨1, 0, 0, 9⟩,
       TestMessage.start ["x", "y"]] ⟨true, 0⟩ "p" =
      Except.ok ⟨false, ⟨1, 0, 0, 9⟩, "p"⟩ := ⟨rfl, rfl⟩

/-- C9 amended: the two collectors do satisfy the same contract on every
delivered sequence whose first `End` is its last message (the well-behaved
protocol shape): with a successful exit outcome, the isolated-worker
collector's result is exactly the distributed-process collector's.  They can
disagree only on streams with messages after the first `End` (which the
worker never sees) or with no `End` at all (where the worker collector never
completes). -/
theorem claim9_agreement_until_first_end (pre : List TestMessage)
    (e : EndMessage) (status : ProcessStatus) (fmt : String)
    (hpre : pre.all (fun m => !m.isEnd) = true)
    (hs : status.success = true) :
    runTestsInThreadForPermissionSet (pre ++ [TestMessage.endMsg e]) fmt =
      some (runTestsForPermissionSet (pre ++ [TestMessage.endMsg e]) status fmt) := by
  unfold runTestsInThreadForPermissionSet runTestsForPermissionSet
  rw [consumeUntilEnd_of_first_end pre e [] _ hpre]
  have hra : readAll (pre ++ [TestMessage.endMsg e]) =
      { pre.foldl stepMessage ⟨none, none⟩ with endMessage := some e } := by
    simp [readAll, List.foldl_append, stepMessage]
  rw [hra]
  cases hexp : (pre.foldl stepMessage ⟨none, none⟩).expectedPassedTests with
  | none => simp [hexp]
  | some n => simp [hs, hexp]

/-- Witness for C9's amended statement at a concrete well-behaved stream. -/
theorem claim9_witness :
    runTestsInThreadForPermissionSet
      ([TestMessage.start ["a", "b"]] ++ [TestMessage.endMsg ⟨2, 0, 0, 4⟩]) "p" =
      some (runTestsForPermissionSet
        ([TestMessage.start ["a", "b"]] ++ [TestMessage.endMsg ⟨2, 0, 0, 4⟩])
        ⟨true, 0⟩ "p") :=
  claim9_agreement_until_first_end [TestMessage.start ["a", "b"]] ⟨2, 0, 0, 4⟩
    ⟨true, 0⟩ "p" (by decide) rfl

/-- C6 counterexample: in worker mode with grant list `read`, the process
connects to the reporting address FIRST and only then drops permissions: the
`connect` event heads the trace and every `revoke` follows it, contradicting
"this downgrade happens before it connects to the reporting address". -/
theorem claim6_counterexample :
    workerRunnerMain "127.0.0.1:4510" "read" =
      [WorkerEvent.connect "127.0.0.1:4510", WorkerEvent.revoke "write",
       WorkerEvent.revoke "net", WorkerEvent.revoke "env",
       WorkerEvent.revoke "run", WorkerEvent.revoke "plugin",
       WorkerEvent.revoke "hrtime", WorkerEvent.registerTests,
       WorkerEvent.runTests] ∧
    (workerRunnerMain "127.0.0.1:4510" "read").head? =
      some (WorkerEvent.connect "127.0.0.1:4510") := by
  refine ⟨by decide, by decide⟩

/-- C6 amended: the worker downgrades to exactly the granted set — revoking
precisely the known permissions missing from the grant list, never granting
any — strictly before test registration and execution; but the downgrade
happens AFTER the connection to the reporting address, which is the trace's
first action. -/
theorem claim6_downgrade_trace (addrStr permsStr : String) :
    (∃ revs : List String,
      workerRunnerMain addrStr permsStr =
        WorkerEvent.connect addrStr
          :: (revs.map WorkerEvent.revoke
              ++ [WorkerEvent.registerTests, WorkerEvent.runTests]) ∧
      ∀ p, p ∈ revs ↔ p ∈ PERMISSIONS ∧ p ∉ parsePermsArg permsStr) ∧
    ∀ p, WorkerEvent.grant p ∉ workerRunnerMain addrStr permsStr := by
  constructor
  · refine ⟨PERMISSIONS.filter (fun q => !(parsePermsArg permsStr).contains q),
      rfl, ?_⟩
    intro p
    simp [List.mem_filter]
  · intro p
    simp [workerRunnerMain, dropWorkerPermissions, List.mem_filter]

/-- C7: whenever every capability set's run produced a verdict, the overall
outcome is the logical AND of the verdicts' `passed` fields — the verdicts
are exactly the per-run collector results, in order, and the exit code is 0
iff all of them passed, 1 otherwise; likewise for the threaded runner. -/
theorem claim7_exit_code_and :
    (∀ (rs : List RunSpec) (vs : List PermissionSetTestResult),
        (masterLoop rs).2 = Except.ok vs →
        List.Forall₂
          (fun r v => runTestsForPermissionSet r.msgs r.status r.permsFmt =
            Except.ok v) rs vs ∧
        (masterRunnerMain rs).2 =
          Except.ok (if vs.all (fun v => v.passed) = true then 0 else 1) ∧
        ((masterRunnerMain rs).2 = Except.ok 0 ↔
          vs.all (fun v => v.passed) = true))
  ∧ (∀ (rs : List RunSpec) (out : List ConsoleLine)
        (vs : List PermissionSetTestResult),
        threadLoop rs = some (out, Except.ok vs) →
        (threadedRunnerMain rs).map (fun x => x.2) =
          some (Except.ok (if vs.all (fun v => v.passed) = true then 0 else 1))) := by
  constructor
  · intro rs vs h
    refine ⟨?_, ?_, ?_⟩
    · induction rs generalizing vs with
      | nil =>
        simp only [masterLoop, Except.ok.injEq] at h
        subst h
        exact List.Forall₂.nil
      | cons r rest ih =>
        unfold masterLoop at h
        split at h
        · simp at h
        · rename_i v hv
          simp only at h
          cases hrest : (masterLoop rest).2 with
          | error e2 => rw [hrest] at h; simp [Except.map] at h
          | ok vs2 =>
            rw [hrest] at h
            simp only [Except.map, Except.ok.injEq] at h
            subst h
            exact List.Forall₂.cons hv (ih vs2 hrest)
    · unfold masterRunnerMain
      rw [h]
      cases hall : vs.all (fun v => v.passed) <;> simp [hall]
    · unfold masterRunnerMain
      rw [h]
      cases hall : vs.all (fun v => v.passed) <;> simp [hall]
  · intro rs out vs h
    unfold threadedRunnerMain
    rw [h]
    cases hall : vs.all (fun v => v.passed) <;> simp [hall]

/-- Witness for C7 at a two-set matrix whose runs both pass. -/
theorem claim7_witness :
    List.Forall₂
      (fun (r : RunSpec) (v : PermissionSetTestResult) =>
        runTestsForPermissionSet r.msgs r.status r.permsFmt = Except.ok v)
      [⟨"A", [TestMessage.start ["a"], TestMessage.endMsg ⟨1, 0, 0, 2⟩], ⟨true, 0⟩⟩,
       ⟨"B", [TestMessage.start ["b"], TestMessage.endMsg ⟨0, 0, 1, 2⟩], ⟨true, 0⟩⟩]
      [⟨true, ⟨1, 0, 0, 2⟩, "A"⟩, ⟨true, ⟨0, 0, 1, 2⟩, "B"⟩] ∧
    (masterRunnerMain
      [⟨"A", [TestMessage.start ["a"], TestMessage.endMsg ⟨1, 0, 0, 2⟩], ⟨true, 0⟩⟩,
       ⟨"B", [TestMessage.start ["b"], TestMessage.endMsg ⟨0, 0, 1, 2⟩],
        ⟨true, 0⟩⟩]).2 =
      Except.ok
        (if ([⟨true, ⟨1, 0, 0, 2⟩, "A"⟩,
              ⟨true, ⟨0, 0, 1, 2⟩, "B"⟩] : List PermissionSetTestResult).all
            (fun v => v.passed) = true then 0 else 1) ∧
    ((masterRunnerMain
      [⟨"A", [TestMessage.start ["a"], TestMessage.endMsg ⟨1, 0, 0, 2⟩], ⟨true, 0⟩⟩,
       ⟨"B", [TestMessage.start ["b"], TestMessage.endMsg ⟨0, 0, 1, 2⟩],
        ⟨true, 0⟩⟩]).2 = Except.ok 0 ↔
      ([⟨true, ⟨1, 0, 0, 2⟩, "A"⟩,
        ⟨true, ⟨0, 0, 1, 2⟩, "B"⟩] : List PermissionSetTestResult).all
        (fun v => v.passed) = true) :=
  claim7_exit_code_and.1
    [⟨"A", [TestMessage.start ["a"], TestMessage.endMsg ⟨1, 0, 0, 2⟩], ⟨true, 0⟩⟩,
     ⟨"B", [TestMessage.start ["b"], TestMessage.endMsg ⟨0, 0, 1, 2⟩], ⟨true, 0⟩⟩]
    [⟨true, ⟨1, 0, 0, 2⟩, "A"⟩, ⟨true, ⟨0, 0, 1, 2⟩, "B"⟩] rfl

lemma mem_summaryBlock (vs : List PermissionSetTestResult)
    (v : PermissionSetTestResult) (hv : v ∈ vs) :
    ConsoleLine.line ("Summary for " ++ v.permsStr) ∈ summaryBlock vs := by
  induction vs with
  | nil => cases hv
  | cons w rest ih =>
    rcases List.mem_cons.mp hv with h1 | h2
    · subst h1
      exact List.mem_cons_self _ _
    · exact List.mem_cons_of_mem _ (List.mem_cons_of_mem _ (ih h2))

/-- C8 counterexample: two sweeps in which a different capability set fails by
count mismatch print the very same bare failure line `Unit tests failed` as
their last output — the printed failure output does not name which set failed
nor why, contradicting "never reports a bare generic failure message". -/
theorem claim8_counterexample :
    (masterRunnerMain
      [⟨"A", [TestMessage.start ["a"], TestMessage.endMsg ⟨1, 0, 0, 2⟩], ⟨true, 0⟩⟩,
       ⟨"B", [TestMessage.start ["a", "b"], TestMessage.endMsg ⟨1, 0, 0, 2⟩],
        ⟨true, 0⟩⟩]).1.getLast? =
      some (ConsoleLine.line "Unit tests failed") ∧
    (masterRunnerMain
      [⟨"A", [TestMessage.start ["a", "b"], TestMessage.endMsg ⟨1, 0, 0, 2⟩],
        ⟨true, 0⟩⟩,
       ⟨"B", [TestMessage.start ["a"], TestMessage.endMsg ⟨1, 0, 0, 2⟩],
        ⟨true, 0⟩⟩]).1.getLast? =
      some (ConsoleLine.line "Unit tests failed") := by
  refine ⟨by decide, by decide⟩

/-- C8 amended: when some verdict failed (here, by count mismatch — the only
failure kind that reaches the aggregation), the tool prints `Summary for X`
for every set, failed or not, and ends with the bare line
`Unit tests failed`, which identifies neither the failing capability set nor
the reason; the other failure kinds surface as thrown error messages instead
of printed output. -/
theorem claim8_generic_failure_line (rs : List RunSpec)
    (vs : List PermissionSetTestResult)
    (h : (masterLoop rs).2 = Except.ok vs)
    (hfail : vs.all (fun v => v.passed) = false) :
    (masterRunnerMain rs).1.getLast? = some (ConsoleLine.line "Unit tests failed") ∧
    ∀ v ∈ vs, ConsoleLine.line ("Summary for " ++ v.permsStr) ∈
      (masterRunnerMain rs).1 := by
  unfold masterRunnerMain
  rw [h]
  simp only [hfail, Bool.not_false, if_true]
  constructor
  · exact List.getLast?_concat _
  · intro v hv
    have hmem := mem_summaryBlock vs v hv
    simp only [List.mem_append]
    exact Or.inl (Or.inr hmem)

/-- Witness for C8's amended statement: set "B" fails by count mismatch. -/
theorem claim8_witness :
    (masterRunnerMain
      [⟨"A", [TestMessage.start ["a"], TestMessage.endMsg ⟨1, 0, 0, 3⟩], ⟨true, 0⟩⟩,
       ⟨"B", [TestMessage.start ["a", "b"], TestMessage.endMsg ⟨1, 0, 0, 3⟩],
        ⟨true, 0⟩⟩]).1.getLast? =
      some (ConsoleLine.line "Unit tests failed") ∧
    ∀ v ∈ ([⟨true, ⟨1, 0, 0, 3⟩, "A"⟩,
            ⟨false, ⟨1, 0, 0, 3⟩, "B"⟩] : List PermissionSetTestResult),
      ConsoleLine.line ("Summary for " ++ v.permsStr) ∈
        (masterRunnerMain
          [⟨"A", [TestMessage.start ["a"], TestMessage.endMsg ⟨1, 0, 0, 3⟩],
            ⟨true, 0⟩⟩,
           ⟨"B", [TestMessage.start ["a", "b"], TestMessage.endMsg ⟨1, 0, 0, 3⟩],
            ⟨true, 0⟩⟩]).1 :=
  claim8_generic_failure_line
    [⟨"A", [TestMessage.start ["a"], TestMessage.endMsg ⟨1, 0, 0, 3⟩], ⟨true, 0⟩⟩,
     ⟨"B", [TestMessage.start ["a", "b"], TestMessage.endMsg ⟨1, 0, 0, 3⟩],
      ⟨true, 0⟩⟩]
    [⟨true, ⟨1, 0, 0, 3⟩, "A"⟩, ⟨false, ⟨1, 0, 0, 3⟩, "B"⟩] rfl rfl

/-- C10: in worker mode an empty `--perms` argument parses to the empty grant
list — the split (which on the empty string would produce one empty-named
permission) is guarded by the length check — so all seven known permissions
(read, write, net, env, run, plugin, hrtime) are revoked before tests are
registered or run. -/
theorem claim10_empty_perms :
    parsePermsArg "" = [] ∧
    stringSplitComma "" = [""] ∧
    dropWorkerPermissions (parsePermsArg "") = PERMISSIONS.map WorkerEvent.revoke ∧
    workerRunnerMain "127.0.0.1:4510" "" =
      WorkerEvent.connect "127.0.0.1:4510"
        :: (PERMISSIONS.map WorkerEvent.revoke
            ++ [WorkerEvent.registerTests, WorkerEvent.runTests]) :=
  ⟨rfl, rfl, rfl, rfl⟩

end UnitTestRunner
